import Mathlib

/-!
Shallow embedding of the `add-staves` tool (`src/add_staves/main.py`).

Numeric page geometry is modelled over `ℚ`: the Python code computes with
machine floats, but every operation it performs (addition, subtraction,
multiplication, division by small integers) is exact on the inputs considered
here, so rational arithmetic is a faithful model of the intended real
arithmetic.  Pages (`PageObject`) are modelled by their cropbox geometry as
pairs `(width, height) : ℚ × ℚ`.  The fallible parts (Python exceptions) are
modelled with `Option`.
-/

/-- Height of `PaperSize.A4` in pypdf (points). -/
def A4height : ℚ := 842

/-- Width of `PaperSize.A4` in pypdf (points). -/
def A4width : ℚ := 595

/-- The `PageLayout` dataclass of `main.py` (lines 20–46): the page
configuration options, with the same defaults. -/
structure PageLayout where
  top_margin : ℚ
  bottom_margin : ℚ
  top_padding : ℚ
  bottom_padding : ℚ
  stave_height : ℚ
  ragged_bottom : Bool
  ragged_bottom_last : Bool
  minimum_height : ℚ := A4height
  left_margin : ℚ := 30
  right_margin : ℚ := 30
deriving DecidableEq

/-- `PageLayout.calculate_stave_height`: stave height plus both paddings. -/
def PageLayout.calculate_stave_height (pl : PageLayout) : ℚ :=
  pl.stave_height + pl.bottom_padding + pl.top_padding

/-- `PageLayout.printable_width`: width of the printable area of a page. -/
def PageLayout.printable_width (pl : PageLayout) : ℚ :=
  A4width - pl.left_margin - pl.right_margin

/-!  The `--combining` option text format (`groups_parser`, lines 80–100).
Python string splitting and `int()` are modelled on `List Char`. -/

/-- Python `str.split(sep)` for a one-character separator: split at every
occurrence, keeping empty pieces. -/
def splitOnChar (sep : Char) : List Char → List (List Char)
  | [] => [[]]
  | c :: rest =>
    match splitOnChar sep rest with
    | [] => if c = sep then [[], []] else [[c]]
    | t :: ts => if c = sep then [] :: t :: ts else (c :: t) :: ts

/-- Auxiliary walk for `re.split(r"\s+", s)`: collect the current piece in
`cur` (reversed) and emit it at the first character of each whitespace run;
`inWs` records whether the previous character was whitespace. -/
def splitWsAux : List Char → List Char → Bool → List (List Char)
  | [], cur, _ => [cur.reverse]
  | c :: rest, cur, inWs =>
    if c.isWhitespace then
      if inWs then splitWsAux rest [] true
      else cur.reverse :: splitWsAux rest [] true
    else splitWsAux rest (c :: cur) false

/-- Python `re.split(r"\s+", s)`: pieces between maximal whitespace runs
(empty pieces appear at a leading/trailing run, as with `re.split`). -/
def splitWs (cs : List Char) : List (List Char) := splitWsAux cs [] false

/-- Value of a list of decimal digit characters. -/
def digitsToNum (ds : List Char) : Int :=
  ds.foldl (fun a c => a * 10 + ((c.toNat : Int) - 48)) 0

/-- Python `int(str)` on a decimal string: surrounding whitespace is stripped,
an optional single sign is allowed, and the remainder must be a nonempty run
of digits.  (Underscore digit separators, which Python also accepts, are not
modelled; no input in this development uses them.) -/
def parsePyInt (cs : List Char) : Option Int :=
  let t := ((cs.dropWhile Char.isWhitespace).reverse.dropWhile Char.isWhitespace).reverse
  match t with
  | [] => none
  | c :: rest =>
    let signed : Int × List Char :=
      if c = '-' then (-1, rest) else if c = '+' then (1, rest) else (1, c :: rest)
    match signed.2 with
    | [] => none
    | ds => if ds.all Char.isDigit then some (signed.1 * digitsToNum ds) else none

/-- `groups_parser` (lines 80–100): try a comma split, falling back to `[]` on
failure; then try a whitespace split, keeping the previous result on failure;
finally discard the whole list unless every entry is positive.  `none` is
passed through (option not given). -/
def parseGroups (input : Option String) : Option (List Int) :=
  match input with
  | none => none
  | some s =>
    let numbers : List Int :=
      match ((splitOnChar ',' s.data).mapM parsePyInt) with
      | some ns => ns
      | none => []
    let numbers : List Int :=
      match ((splitWs s.data).mapM parsePyInt) with
      | some ns => ns
      | none => numbers
    some (if numbers.all (fun n => decide (0 < n)) then numbers else [])

/-!  `groups_callback` (lines 104–143): normalize the requested grouping
against the true page count. -/

/-- The `while sum(groups) > page_count: groups.pop()` loop of
`groups_callback`, with explicit fuel.  Each iteration drops the last entry,
so the loop runs at most `groups.length` times; `truncWhile` passes exactly
that much fuel. -/
def truncGo (page_count : ℕ) : ℕ → List Int → List Int
  | 0, gs => gs
  | fuel + 1, gs => if (page_count : Int) < gs.sum then truncGo page_count fuel gs.dropLast else gs

/-- The popping loop of `groups_callback`, run to completion. -/
def truncWhile (page_count : ℕ) (gs : List Int) : List Int :=
  truncGo page_count gs.length gs

/-- `groups_callback` (lines 104–143) on a present groups list: collapse a
zero-sum request to one full page, pad a short request with the remaining
pages, truncate an overflowing request from the end (the Python
`while`/`else` then appends the remainder), and keep an exact request. -/
def groups_callback (page_count : ℕ) (groups : List Int) : List Int :=
  if groups.sum = 0 then [(page_count : Int)]
  else if groups.sum < (page_count : Int) then groups ++ [(page_count : Int) - groups.sum]
  else if (page_count : Int) < groups.sum then
    truncWhile page_count groups ++ [(page_count : Int) - (truncWhile page_count groups).sum]
  else groups

/-!  The automatic grouping loop of `run` (lines 448–471), including the
in-place scaling of over-wide systems (lines 456–457). -/

/-- `system.scale_by(printable_width / width)` applied conditionally
(lines 456–457): scale both dimensions when the system is too wide. -/
def scaleSystem (pl : PageLayout) (s : ℚ × ℚ) : ℚ × ℚ :=
  if pl.printable_width < s.1 then
    (s.1 * (pl.printable_width / s.1), s.2 * (pl.printable_width / s.1))
  else s

/-- Running state of the automatic packing loop: the (possibly scaled) systems
seen so far, the closed groups, the size of the open group, and the running
height. -/
structure PackState where
  scaled : List (ℚ × ℚ)
  groups : List Int
  current_group_size : ℕ
  height : ℚ

/-- One iteration of the automatic packing loop (lines 454–471), exactly as
written: note that the final branch starts the new group with the current
system but resets `height` to the margins only, without adding the system's
`new_height`. -/
def packStep (pl : PageLayout) (st : PackState) (u : ℚ × ℚ) : PackState :=
  let u' := scaleSystem pl u
  let new_height := u'.2 + pl.calculate_stave_height
  if st.height + new_height ≤ pl.minimum_height then
    { scaled := st.scaled ++ [u'], groups := st.groups,
      current_group_size := st.current_group_size + 1, height := st.height + new_height }
  else if pl.minimum_height < st.height + new_height ∧ st.current_group_size = 0 then
    { scaled := st.scaled ++ [u'], groups := st.groups ++ [1],
      current_group_size := st.current_group_size, height := pl.top_margin + pl.bottom_margin }
  else
    { scaled := st.scaled ++ [u'], groups := st.groups ++ [(st.current_group_size : Int)],
      current_group_size := 1, height := pl.top_margin + pl.bottom_margin }

/-- The automatic packing loop over all systems, starting from the empty state
of lines 450–453. -/
def packAuto (pl : PageLayout) (units : List (ℚ × ℚ)) : PackState :=
  units.foldl (packStep pl) ⟨[], [], 0, pl.top_margin + pl.bottom_margin⟩

/-- Modelled from the spec: the automatic-mode step of section 4.2, whose
final branch, after emitting the completed group, starts the new group
containing the current unit with the running height incremented by that
unit's `new_height` (the source's `run` loop omits this increment). -/
def packStepSpec (pl : PageLayout) (st : PackState) (u : ℚ × ℚ) : PackState :=
  let u' := scaleSystem pl u
  let new_height := u'.2 + pl.calculate_stave_height
  if st.height + new_height ≤ pl.minimum_height then
    { scaled := st.scaled ++ [u'], groups := st.groups,
      current_group_size := st.current_group_size + 1, height := st.height + new_height }
  else if pl.minimum_height < st.height + new_height ∧ st.current_group_size = 0 then
    { scaled := st.scaled ++ [u'], groups := st.groups ++ [1],
      current_group_size := st.current_group_size, height := pl.top_margin + pl.bottom_margin }
  else
    { scaled := st.scaled ++ [u'], groups := st.groups ++ [(st.current_group_size : Int)],
      current_group_size := 1,
      height := pl.top_margin + pl.bottom_margin + new_height }

/-- Modelled from the spec: the automatic packing loop of section 4.2. -/
def packAutoSpec (pl : PageLayout) (units : List (ℚ × ℚ)) : PackState :=
  units.foldl (packStepSpec pl) ⟨[], [], 0, pl.top_margin + pl.bottom_margin⟩

/-!  `calculate_min_height` and `layout_systems` (lines 158–270). -/

/-- `calculate_min_height` (lines 158–171), with the source's
`reduce`/`map` structure. -/
def calculate_min_height (systems : List (ℚ × ℚ)) (page_layout : PageLayout) : ℚ :=
  (systems.map (fun system => system.2)).foldl (fun x y => x + y) 0
    + page_layout.top_margin
    + page_layout.bottom_margin
    + (systems.length : ℚ)
      * (page_layout.stave_height + page_layout.top_padding + page_layout.bottom_padding)

/-- The `dynamic_layout` flag of `layout_systems` (lines 197–205): computed
from `ragged_bottom`, then overwritten from `ragged_bottom_last` on the last
page. -/
def dynamicLayoutFlag (systems : List (ℚ × ℚ)) (pl : PageLayout) (is_last_page : Bool) : Bool :=
  if is_last_page then
    decide (calculate_min_height systems pl < A4height) && !pl.ragged_bottom_last
  else
    decide (calculate_min_height systems pl < A4height) && !pl.ragged_bottom

/-- The `dynamic_spacing` value of `layout_systems` (lines 224–231). -/
def dynamicSpacing (systems : List (ℚ × ℚ)) (pl : PageLayout) (is_last_page : Bool) : ℚ :=
  if dynamicLayoutFlag systems pl is_last_page then
    pl.minimum_height - calculate_min_height systems pl - pl.bottom_margin - pl.top_margin
  else 0

/-- The `additional_bottom_padding` / `additional_top_padding` computation of
`layout_systems` (lines 233–242).  Python divides by `3 * len(systems)`
unconditionally, so a group of zero systems raises `ZeroDivisionError`,
modelled as `none`. -/
def extraPaddings (n : ℕ) (dynamic_spacing : ℚ) : Option (ℚ × ℚ) :=
  if n = 0 then none
  else
    let additional_bottom_padding := dynamic_spacing / (3 * (n : ℚ))
    let additional_bottom_padding :=
      if 30 < additional_bottom_padding then 30 else additional_bottom_padding
    some (additional_bottom_padding,
      (dynamic_spacing - additional_bottom_padding * (n : ℚ)) / (n : ℚ))

/-- The placement loop of `layout_systems` (lines 245–270): walking the cursor
down from `y`, emit for every system its vertical span `(bottom, top)` and the
span of its staves block, and return the final cursor value.  A system merged
at `height - top` occupies exactly `[height - h, height]`; the staves page has
cropbox bottom `0`, so merged at `height - stavesHeight` it occupies
`[height - stavesHeight, height]`. -/
def placeSpans (stavesHeight bottomGap topGap : ℚ) : ℚ → List ℚ → List (ℚ × ℚ) × ℚ
  | y, [] => ([], y)
  | y, h :: rest =>
    let y1 := y - h
    let y2 := y1 - bottomGap
    let y3 := y2 - stavesHeight
    let r := placeSpans stavesHeight bottomGap topGap (y3 - topGap) rest
    ((y1, y) :: (y3, y2) :: r.1, r.2)

/-- One assembled output page: the canvas height, the vertical spans of every
placed element (systems and staves blocks, top-down), and the final cursor
value. -/
structure PlacedPage where
  height : ℚ
  spans : List (ℚ × ℚ)
  final : ℚ
deriving DecidableEq

/-- `layout_systems` (lines 174–270): canvas height is the larger of the
minimum height and the configured `minimum_height`; extra paddings are
distributed out of `dynamic_spacing`; every system and staves block is placed
at the walking cursor.  `none` models the `ZeroDivisionError` raised on an
empty group. -/
def layout_systems (systems : List (ℚ × ℚ)) (stavesHeight : ℚ) (pl : PageLayout)
    (is_last_page : Bool) : Option PlacedPage :=
  let minimum_height := calculate_min_height systems pl
  let height := if pl.minimum_height < minimum_height then minimum_height else pl.minimum_height
  match extraPaddings systems.length (dynamicSpacing systems pl is_last_page) with
  | none => none
  | some pads =>
    let r := placeSpans stavesHeight (pl.bottom_padding + pads.1) (pl.top_padding + pads.2)
      (height - pl.top_margin) (systems.map (fun system => system.2))
    some ⟨height, r.1, r.2⟩

/-!  The `run` pipeline (lines 429–504). -/

/-- Lines 429–473 of `run`: apply `groups_callback` to the parsed groups
(`None` passes through), fall back to the automatic packing loop when no
groups were given (scaling the systems in place), and apply `groups_callback`
once more.  Returns the systems as they stand after this phase together with
the final group sizes. -/
def resolveAndScale (parsed : Option (List Int)) (units : List (ℚ × ℚ)) (pl : PageLayout) :
    List (ℚ × ℚ) × List Int :=
  let groups1 : Option (List Int) :=
    match parsed with
    | none => none
    | some g => some (groups_callback units.length g)
  match groups1 with
  | none =>
    let st := packAuto pl units
    (st.scaled, groups_callback units.length st.groups)
  | some g => (units, groups_callback units.length g)

/-- The group sizes the pipeline ends up following (line 482). -/
def resolveGroups (parsed : Option (List Int)) (units : List (ℚ × ℚ)) (pl : PageLayout) :
    List Int :=
  (resolveAndScale parsed units pl).2

/-- The systems as they stand when the pipeline starts placing them. -/
def pipelineUnits (parsed : Option (List Int)) (units : List (ℚ × ℚ)) (pl : PageLayout) :
    List (ℚ × ℚ) :=
  (resolveAndScale parsed units pl).1

/-- Python `range(a, b)`. -/
def pyRange (a b : Int) : List Int :=
  (List.range (b - a).toNat).map (fun k => a + (k : Int))

/-- Python list indexing `xs[i]`: negative indices count from the end;
anything out of range raises (`none`). -/
def pyGet (xs : List (ℚ × ℚ)) (i : Int) : Option (ℚ × ℚ) :=
  if 0 ≤ i then xs.get? i.toNat
  else if 0 ≤ (xs.length : Int) + i then xs.get? ((xs.length : Int) + i).toNat
  else none

/-- The page-assembly loop of `run` (lines 476–499): walk the group sizes,
slice the systems for each group, and lay each group out on a fresh page,
flagging the last group. -/
def assembleGo (units' : List (ℚ × ℚ)) (stavesHeight : ℚ) (pl : PageLayout) (total : ℕ) :
    Int → ℕ → List Int → Option (List PlacedPage)
  | _, _, [] => some []
  | cur, i, g :: rest => do
    let systems ← (pyRange cur (cur + g)).mapM (pyGet units')
    let page ← layout_systems systems stavesHeight pl (decide (i = total - 1))
    let more ← assembleGo units' stavesHeight pl total (cur + g) (i + 1) rest
    pure (page :: more)

/-- All pages assembled for the given group sizes. -/
def assemblePages (units' : List (ℚ × ℚ)) (stavesHeight : ℚ) (pl : PageLayout)
    (groups : List Int) : Option (List PlacedPage) :=
  assembleGo units' stavesHeight pl groups.length 0 0 groups

/-- The whole `run` pipeline after reading the score (lines 429–504): resolve
and scale, then assemble every group; `none` models an uncaught exception. -/
def runModel (parsed : Option (List Int)) (units : List (ℚ × ℚ)) (stavesHeight : ℚ)
    (pl : PageLayout) : Option (List PlacedPage) :=
  assemblePages (pipelineUnits parsed units pl) stavesHeight pl (resolveGroups parsed units pl)

/-- The default layout configuration of `run` with a staves block of height
50: margins 30/30, paddings 30/10, and both ragged flags cleared so that the
dynamic layout is exercised on every page. -/
def plA : PageLayout :=
  { top_margin := 30, bottom_margin := 30, top_padding := 30, bottom_padding := 10,
    stave_height := 50, ragged_bottom := false, ragged_bottom_last := false }

/-- Two vertical spans `(bottom, top)` overlap when each one's bottom lies
strictly below the other's top: the intersection has positive extent.
Spans that merely touch at a boundary do not overlap. -/
def overlaps (a b : ℚ × ℚ) : Prop := a.1 < b.2 ∧ b.1 < a.2

/-- A layout configuration with zero paddings, used to exhibit the behaviour
of the spacing allocator when the slack `minimum_height - top_margin -
bottom_margin` subtracted by the code turns negative. -/
def plC6 : PageLayout :=
  { top_margin := 30, bottom_margin := 30, top_padding := 0, bottom_padding := 0,
    stave_height := 50, ragged_bottom := false, ragged_bottom_last := false }

/-!  Helper lemmas about the truncation loop and `groups_callback`. -/

/-- Folding addition from any accumulator is the accumulator plus the sum. -/
theorem foldl_add_eq_sum (l : List ℚ) (a : ℚ) :
    List.foldl (fun x y => x + y) a l = a + l.sum := by
  induction l generalizing a with
  | nil => simp
  | cons h t ih => simp [ih, List.sum_cons]; ring

/-- `calculate_min_height` in closed form. -/
theorem calculate_min_height_eq (systems : List (ℚ × ℚ)) (pl : PageLayout) :
    calculate_min_height systems pl =
      (systems.map (fun s => s.2)).sum + pl.top_margin + pl.bottom_margin
        + (systems.length : ℚ)
          * (pl.stave_height + pl.top_padding + pl.bottom_padding) := by
  simp [calculate_min_height, foldl_add_eq_sum]

/-- The truncation loop, given enough fuel, stops with sum at most the page
count. -/
theorem truncGo_sum_le (N : ℕ) :
    ∀ (fuel : ℕ) (gs : List Int), gs.length ≤ fuel → (truncGo N fuel gs).sum ≤ (N : Int) := by
  intro fuel
  induction fuel with
  | zero =>
    intro gs h
    have : gs = [] := List.length_eq_zero.mp (Nat.le_zero.mp h)
    subst this
    simp [truncGo]
  | succ n ih =>
    intro gs h
    rw [truncGo]
    split
    · rename_i hlt
      apply ih
      cases gs with
      | nil => simp at hlt; omega
      | cons a t => simp [List.length_dropLast] at h ⊢; omega
    · omega

/-- Every element the truncation loop keeps was in the original list. -/
theorem truncGo_subset (N : ℕ) :
    ∀ (fuel : ℕ) (gs : List Int), ∀ x ∈ truncGo N fuel gs, x ∈ gs := by
  intro fuel
  induction fuel with
  | zero => intro gs x hx; simpa [truncGo] using hx
  | succ n ih =>
    intro gs x hx
    rw [truncGo] at hx
    split at hx
    · exact (List.dropLast_sublist gs).subset (ih _ x hx)
    · exact hx

/-- On a list of positive entries the truncation loop for zero pages pops
everything. -/
theorem truncGo_zero_pos :
    ∀ (fuel : ℕ) (gs : List Int), gs.length ≤ fuel → (∀ x ∈ gs, 0 < x) →
      truncGo 0 fuel gs = [] := by
  intro fuel
  induction fuel with
  | zero =>
    intro gs h _
    exact List.length_eq_zero.mp (Nat.le_zero.mp h)
  | succ n ih =>
    intro gs h hpos
    rw [truncGo]
    split
    · apply ih
      · cases gs with
        | nil => simp at *
        | cons a t => simp [List.length_dropLast] at h ⊢; omega
      · intro x hx
        exact hpos x ((List.dropLast_sublist gs).subset hx)
    · rename_i hns
      cases gs with
      | nil => rfl
      | cons a t =>
        exfalso
        have hsum : (0 : Int) < (a :: t).sum := List.sum_pos _ hpos (by simp)
        simp only [Nat.cast_zero, not_lt] at hns
        omega

/-- The sum bound for the truncation loop as the code runs it. -/
theorem truncWhile_sum_le (N : ℕ) (gs : List Int) : (truncWhile N gs).sum ≤ (N : Int) :=
  truncGo_sum_le N gs.length gs le_rfl

/-- Membership for the truncation loop as the code runs it. -/
theorem truncWhile_subset (N : ℕ) (gs : List Int) : ∀ x ∈ truncWhile N gs, x ∈ gs :=
  truncGo_subset N gs.length gs

/-- The resolved grouping always sums to the page count. -/
theorem groups_callback_sum (N : ℕ) (gs : List Int) :
    (groups_callback N gs).sum = (N : Int) := by
  rw [groups_callback]
  split
  · simp
  · split
    · simp
    · split
      · simp
      · rename_i h0 hlt hgt
        omega

/-- For zero pages and positive entries the resolved grouping is `[0]`. -/
theorem groups_callback_zero_pos (gs : List Int) (hpos : ∀ x ∈ gs, 0 < x) :
    groups_callback 0 gs = [0] := by
  rw [groups_callback]
  split
  · simp
  · rename_i h0
    have hnn : (0 : Int) ≤ gs.sum := List.sum_nonneg (fun x hx => le_of_lt (hpos x hx))
    split
    · omega
    · split
      · rw [truncWhile, truncGo_zero_pos gs.length gs le_rfl hpos]
        simp
      · omega

/-- Any zero-sum list resolves, for zero pages, to `[0]`. -/
theorem groups_callback_zero_of_sum_zero (gs : List Int) (h : gs.sum = 0) :
    groups_callback 0 gs = [0] := by
  rw [groups_callback]
  simp [h]

/-- A list already summing to a positive page count is kept unchanged. -/
theorem groups_callback_fixed (N : ℕ) (gs : List Int) (hN : 0 < N) (h : gs.sum = (N : Int)) :
    groups_callback N gs = gs := by
  rw [groups_callback]
  rw [if_neg (by omega), if_neg (by omega), if_neg (by omega)]

/-!  Helper lemmas about the spacing allocator and the placement loop. -/

/-- The two extra paddings together consume the whole dynamic spacing: the
30-unit cap moves weight from the bottom gap to the top gap but never changes
the total. -/
theorem extraPaddings_sum (n : ℕ) (ds abp atp : ℚ) (hn : n ≠ 0)
    (h : extraPaddings n ds = some (abp, atp)) : (abp + atp) * (n : ℚ) = ds := by
  have hq : ((n : ℚ)) ≠ 0 := Nat.cast_ne_zero.mpr hn
  simp only [extraPaddings, if_neg hn, Option.some.injEq, Prod.mk.injEq] at h
  obtain ⟨h1, h2⟩ := h
  subst h1
  subst h2
  field_simp

/-- With nonnegative dynamic spacing both extra paddings are nonnegative. -/
theorem extraPaddings_nonneg (n : ℕ) (ds abp atp : ℚ) (hn : n ≠ 0) (hds : 0 ≤ ds)
    (h : extraPaddings n ds = some (abp, atp)) : 0 ≤ abp ∧ 0 ≤ atp := by
  have hq : (0 : ℚ) < (n : ℚ) := by
    exact_mod_cast Nat.pos_of_ne_zero hn
  simp only [extraPaddings, if_neg hn, Option.some.injEq, Prod.mk.injEq] at h
  obtain ⟨h1, h2⟩ := h
  subst h1
  subst h2
  constructor
  · split
    · norm_num
    · positivity
  · apply div_nonneg _ (le_of_lt hq)
    split
    · rename_i hcap
      rw [lt_div_iff₀ (by positivity)] at hcap
      nlinarith
    · rename_i hcap
      rw [not_lt] at hcap
      have h3 : ds / (3 * (n : ℚ)) * (n : ℚ) = ds / 3 := by
        field_simp
        ring
      rw [h3]
      linarith

/-- The final cursor value of the placement loop: the start value minus all
system heights and, per system, both gaps and the staves height. -/
theorem placeSpans_final (sh bg tg : ℚ) (hs : List ℚ) :
    ∀ y : ℚ, (placeSpans sh bg tg y hs).2
      = y - hs.sum - (hs.length : ℚ) * (bg + sh + tg) := by
  induction hs with
  | nil => intro y; simp [placeSpans]
  | cons h t ih =>
    intro y
    simp only [placeSpans, ih, List.sum_cons, List.length_cons]
    push_cast
    ring

/-- The placement loop emits spans in strictly descending order (each span's
top is at most the previous span's bottom) and below the start cursor,
provided heights and gaps are nonnegative. -/
theorem placeSpans_ordered (sh bg tg : ℚ) (hsh : 0 ≤ sh) (hbg : 0 ≤ bg) (htg : 0 ≤ tg) :
    ∀ (hs : List ℚ) (y : ℚ), (∀ h ∈ hs, 0 ≤ h) →
      List.Pairwise (fun a b => b.2 ≤ a.1) (placeSpans sh bg tg y hs).1 ∧
      ∀ s ∈ (placeSpans sh bg tg y hs).1, s.2 ≤ y := by
  intro hs
  induction hs with
  | nil => intro y _; simp [placeSpans]
  | cons h t ih =>
    intro y hpos
    have hh : 0 ≤ h := hpos h (by simp)
    obtain ⟨ihp, ihb⟩ := ih (y - h - bg - sh - tg) (fun x hx => hpos x (by simp [hx]))
    simp only [placeSpans]
    constructor
    · refine List.Pairwise.cons ?_ (List.Pairwise.cons ?_ ihp)
      · intro s hs'
        rcases List.mem_cons.mp hs' with h' | h'
        · subst h'
          simp
          linarith
        · have := ihb s h'
          simp only
          linarith
      · intro s hs'
        have := ihb s hs'
        simp only
        linarith
    · intro s hs'
      rcases List.mem_cons.mp hs' with h' | hs'
      · subst h'; simp
      · rcases List.mem_cons.mp hs' with h' | hs'
        · subst h'; simp; linarith
        · have := ihb s hs'
          linarith

/-- Each packing step appends exactly the (possibly scaled) current system to
the list of systems seen so far. -/
theorem packStep_scaled (pl : PageLayout) (st : PackState) (u : ℚ × ℚ) :
    (packStep pl st u).scaled = st.scaled ++ [scaleSystem pl u] := by
  rw [packStep]
  split
  · rfl
  · split
    · rfl
    · rfl

/-- The automatic loop scales every system exactly as `scaleSystem` does. -/
theorem packAuto_scaled (pl : PageLayout) (units : List (ℚ × ℚ)) :
    (packAuto pl units).scaled = units.map (scaleSystem pl) := by
  suffices h : ∀ st : PackState,
      (units.foldl (packStep pl) st).scaled = st.scaled ++ units.map (scaleSystem pl) by
    simpa [packAuto] using h ⟨[], [], 0, pl.top_margin + pl.bottom_margin⟩
  induction units with
  | nil => intro st; simp
  | cons u t ih =>
    intro st
    simp only [List.foldl_cons, List.map_cons, ih, packStep_scaled, List.append_assoc,
      List.singleton_append]

/-- Whatever the `--combining` text was, the parsed list that `groups_parser`
hands on consists of positive entries only (any failure or non-positive entry
collapses it to `[]`). -/
theorem parseGroups_all_pos (s : String) (l : List Int)
    (h : parseGroups (some s) = some l) : (l.all fun n => decide (0 < n)) = true := by
  simp only [parseGroups, Option.some.injEq] at h
  subst h
  split
  · rename_i hcond
    exact hcond
  · rfl

/-!  The claims. -/

/-- C5: for every list of units and every configuration,
`calculate_min_height` returns exactly the sum of the units' heights plus
`top_margin` plus `bottom_margin` plus the unit count times
`(stave_height + top_padding + bottom_padding)`; the empty list yields the
margins-only height. -/
theorem C5_min_height_formula (systems : List (ℚ × ℚ)) (pl : PageLayout) :
    calculate_min_height systems pl =
      (systems.map (fun s => s.2)).sum + pl.top_margin + pl.bottom_margin
        + (systems.length : ℚ) * (pl.stave_height + pl.top_padding + pl.bottom_padding) ∧
    calculate_min_height [] pl = pl.top_margin + pl.bottom_margin := by
  refine ⟨calculate_min_height_eq systems pl, ?_⟩
  simp [calculate_min_height]

/-- C7: for every nonempty group and every configuration whose
`minimum_height` field carries its default value (the standard A4 height, as
in every run of the pipeline), the assembled page's canvas height equals
`max(minimum height, standard height)` and is therefore never below the
standard page height, in every layout mode. -/
theorem C7_canvas_height_max (systems : List (ℚ × ℚ)) (stavesHeight : ℚ) (pl : PageLayout)
    (is_last : Bool) (hne : systems ≠ []) (hstd : pl.minimum_height = A4height) :
    (layout_systems systems stavesHeight pl is_last).map PlacedPage.height
      = some (max (calculate_min_height systems pl) A4height) ∧
    A4height ≤ max (calculate_min_height systems pl) A4height := by
  have hn : systems.length ≠ 0 := by simpa [List.length_eq_zero] using hne
  refine ⟨?_, le_max_right _ _⟩
  obtain ⟨abp, atp, hex⟩ : ∃ a b,
      extraPaddings systems.length (dynamicSpacing systems pl is_last) = some (a, b) := by
    rw [extraPaddings, if_neg hn]
    exact ⟨_, _, rfl⟩
  simp only [layout_systems, hex, Option.map_some]
  rw [hstd]
  rcases le_or_lt (calculate_min_height systems pl) A4height with h | h
  · rw [if_neg (not_lt.mpr h), max_eq_right h]
    rfl
  · rw [if_pos h, max_eq_left (le_of_lt h)]
    rfl

/-- C7 witness: the single-unit page of the concrete scenario gets canvas
height `max(650, 842) = 842`. -/
theorem C7_canvas_height_max_witness :
    (layout_systems [((100 : ℚ), (500 : ℚ))] 50 plA false).map PlacedPage.height
      = some (max (calculate_min_height [((100 : ℚ), (500 : ℚ))] plA) A4height) ∧
    A4height ≤ max (calculate_min_height [((100 : ℚ), (500 : ℚ))] plA) A4height :=
  C7_canvas_height_max [(100, 500)] 50 plA false (List.cons_ne_nil _ _) rfl

/-- C1 (amended): for every page count `N` and every integer list, the
resolved grouping sums to exactly `N`; when every entry of the input is
positive (as the parser guarantees), every resolved entry except possibly the
last is positive, and every entry including the last is nonnegative — the
last entry can be `0`, in the truncation branch or, for `N = 0`, in the
collapse branch.  The claim's stronger form, for malformed lists too, is
refuted in `C1_negative_entry_survives`. -/
theorem C1_resolve_sum_and_entries (N : ℕ) (gs : List Int) :
    (groups_callback N gs).sum = (N : Int) ∧
    ((∀ x ∈ gs, 0 < x) →
      ((groups_callback N gs).dropLast.all fun y => decide (0 < y)) = true ∧
      ((groups_callback N gs).all fun y => decide (0 ≤ y)) = true) := by
  refine ⟨groups_callback_sum N gs, fun hpos => ⟨?_, ?_⟩⟩
  · simp only [List.all_eq_true, decide_eq_true_eq]
    rw [groups_callback]
    split
    · simp
    · split
      · intro y hy
        rw [List.dropLast_concat] at hy
        exact hpos y hy
      · split
        · intro y hy
          rw [List.dropLast_concat] at hy
          exact hpos y (truncWhile_subset N gs y hy)
        · intro y hy
          exact hpos y ((List.dropLast_sublist gs).subset hy)
  · simp only [List.all_eq_true, decide_eq_true_eq]
    rw [groups_callback]
    split
    · intro y hy
      simp only [List.mem_singleton] at hy
      subst hy
      exact Int.natCast_nonneg N
    · split
      · rename_i h0 hlt
        intro y hy
        rcases List.mem_append.mp hy with h | h
        · exact le_of_lt (hpos y h)
        · simp only [List.mem_singleton] at h
          subst h
          omega
      · split
        · intro y hy
          rcases List.mem_append.mp hy with h | h
          · exact le_of_lt (hpos y (truncWhile_subset N gs y h))
          · simp only [List.mem_singleton] at h
            subst h
            have := truncWhile_sum_le N gs
            omega
        · intro y hy
          exact le_of_lt (hpos y hy)

/-- C1 witness: two pages requested as `[3]` resolve to `[2]` — the sum is 2,
all entries before the last are positive, all entries are nonnegative. -/
theorem C1_resolve_sum_and_entries_witness :
    (groups_callback 2 [3]).sum = (2 : Int) ∧
    ((groups_callback 2 [3]).dropLast.all fun y => decide (0 < y)) = true ∧
    ((groups_callback 2 [3]).all fun y => decide (0 ≤ y)) = true := by
  have h := C1_resolve_sum_and_entries 2 [3]
  exact ⟨h.1, (h.2 (by decide)).1, (h.2 (by decide)).2⟩

/-- C1 counterexample: on the malformed list `[-5]` with 3 pages, the padding
branch (not the truncation branch: the sum `-5` does not exceed 3) returns
`[-5, 8]`, whose first — not last — entry is below 1.  The "every element ≥ 1
except the truncation edge case" part of the claim therefore fails for
malformed input. -/
theorem C1_negative_entry_survives :
    groups_callback 3 [-5] = [-5, 8] ∧
    (groups_callback 3 [-5]).dropLast = [-5] ∧
    (-5 : Int) < 1 ∧
    ¬ ((3 : Int) < ([-5] : List Int).sum) := by decide

/-- C10 (amended): on lists of positive integers — which is all the pipeline
ever feeds it: the parser guarantees positivity and the automatic packer emits
positive group sizes — `groups_callback` is idempotent, so the pipeline's
second application (line 473) leaves the line-432 result unchanged.  For
arbitrary integer lists idempotence fails; see
`C10_not_idempotent_on_malformed`. -/
theorem C10_normalization_idempotent (N : ℕ) (gs : List Int)
    (hpos : ∀ x ∈ gs, 0 < x) :
    groups_callback N (groups_callback N gs) = groups_callback N gs := by
  rcases Nat.eq_zero_or_pos N with hN | hN
  · subst hN
    rw [groups_callback_zero_pos gs hpos]
    exact groups_callback_zero_of_sum_zero [0] (by simp)
  · exact groups_callback_fixed N _ hN (groups_callback_sum N gs)

/-- C10 witness: normalizing `[3]` against 2 pages gives `[2]`, which
renormalizes to itself. -/
theorem C10_normalization_idempotent_witness :
    groups_callback 2 (groups_callback 2 [3]) = groups_callback 2 [3] :=
  C10_normalization_idempotent 2 [3] (by decide)

/-- C10 counterexample: for zero pages the malformed list `[-2]` normalizes to
`[-2, 2]`, which renormalizes to `[0]` — applying the normalization to its own
output does not return that output unchanged. -/
theorem C10_not_idempotent_on_malformed :
    groups_callback 0 [-2] = [-2, 2] ∧
    groups_callback 0 (groups_callback 0 [-2]) = [0] ∧
    groups_callback 0 (groups_callback 0 [-2]) ≠ groups_callback 0 [-2] := by decide

/-- C2 (amended): a parse failure or a non-positive entry makes the parser
discard the whole list — its output only ever contains positive entries, all
failures collapsing to `[]` — but the empty list does NOT degrade to automatic
mode: `groups_callback` turns it into one single group holding all
`len(units)` pages.  The divergence from automatic mode is exhibited in
`C2_discard_is_not_automatic_mode`. -/
theorem C2_malformed_collapses_to_one_page :
    (∀ (s : String) (l : List Int), parseGroups (some s) = some l →
      (l.all fun n => decide (0 < n)) = true) ∧
    (∀ (units : List (ℚ × ℚ)) (pl : PageLayout),
      resolveGroups (some []) units pl = [(units.length : Int)]) := by
  refine ⟨parseGroups_all_pos, ?_⟩
  intro units pl
  have h1 : groups_callback units.length [] = [(units.length : Int)] := by
    rw [groups_callback]
    simp
  simp only [resolveGroups, resolveAndScale]
  rw [h1]
  rcases Nat.eq_zero_or_pos units.length with hN | hN
  · rw [hN]
    simp only [Nat.cast_zero]
    exact groups_callback_zero_of_sum_zero [0] (by simp)
  · exact groups_callback_fixed _ _ hN (by simp)

/-- C2 witness: the malformed text `"0"` parses to the discarded list `[]`,
and with two 700-point-tall pages the discarded list resolves to the single
group `[2]`. -/
theorem C2_malformed_collapses_to_one_page_witness :
    ((([] : List Int)).all fun n => decide (0 < n)) = true ∧
    resolveGroups (some []) [((100 : ℚ), (700 : ℚ)), (100, 700)] plA = [2] := by
  constructor
  · exact C2_malformed_collapses_to_one_page.1 "0" [] (by decide)
  · have h := C2_malformed_collapses_to_one_page.2 [((100 : ℚ), (700 : ℚ)), (100, 700)] plA
    simpa using h

/-- C2 counterexample: the non-positive entry in `"0"` discards the list, but
the resulting grouping `[2]` differs from the automatic-mode grouping
`[1, 1]` of the same two 700-point-tall pages — the pipeline does not behave
as if no explicit list had been supplied. -/
theorem C2_discard_is_not_automatic_mode :
    parseGroups (some "0") = some [] ∧
    resolveGroups (some []) [((100 : ℚ), (700 : ℚ)), (100, 700)] plA = [2] ∧
    resolveGroups none [((100 : ℚ), (700 : ℚ)), (100, 700)] plA = [1, 1] ∧
    resolveGroups (some []) [((100 : ℚ), (700 : ℚ)), (100, 700)] plA
      ≠ resolveGroups none [((100 : ℚ), (700 : ℚ)), (100, 700)] plA := by
  have h2 : resolveGroups (some []) [((100 : ℚ), (700 : ℚ)), (100, 700)] plA = [2] := by
    norm_num [resolveGroups, resolveAndScale, groups_callback, truncWhile, truncGo]
  have h3 : resolveGroups none [((100 : ℚ), (700 : ℚ)), (100, 700)] plA = [1, 1] := by
    norm_num [resolveGroups, resolveAndScale, packAuto, packStep, scaleSystem,
      PageLayout.calculate_stave_height, PageLayout.printable_width, plA, A4height, A4width,
      groups_callback, truncWhile, truncGo]
  refine ⟨by decide, h2, h3, ?_⟩
  rw [h2, h3]
  decide

/-- C4: the claim matches the spec and the loop's own documented intent
("fit as many systems as possible on a DIN A4 page"), but the code omits the
`height += new_height` increment in the group-closing branch.  On pages of
heights 400, 600, 600 (staves 50, layout `plA`) the code closes `[1]` and
then packs BOTH 600-point systems into the next group — resolved grouping
`[1, 2]`, whose second page needs 1440 points, well above A4 — whereas the
spec's loop (`packAutoSpec`, with the increment) yields `[1, 1, 1]`. -/
theorem C4_packer_drops_new_height :
    groups_callback 3 (packAuto plA [((100 : ℚ), (400 : ℚ)), (100, 600), (100, 600)]).groups
      = [1, 2] ∧
    groups_callback 3 (packAutoSpec plA [((100 : ℚ), (400 : ℚ)), (100, 600), (100, 600)]).groups
      = [1, 1, 1] ∧
    calculate_min_height [((100 : ℚ), (600 : ℚ)), (100, 600)] plA = 1440 ∧
    A4height < 1440 := by
  refine ⟨?_, ?_, ?_, ?_⟩
  · norm_num [packAuto, packStep, scaleSystem, PageLayout.calculate_stave_height,
      PageLayout.printable_width, plA, A4height, A4width, groups_callback, truncWhile, truncGo]
  · norm_num [packAutoSpec, packStepSpec, scaleSystem, PageLayout.calculate_stave_height,
      PageLayout.printable_width, plA, A4height, A4width, groups_callback, truncWhile, truncGo]
  · norm_num [calculate_min_height, plA]
  · norm_num [A4height]

/-- C8: with a zero-unit input the pipeline does not finish quietly: both
grouping modes normalize to the single zero-size group `[0]`, the assembly
loop therefore attempts one page with an empty group, and `layout_systems`
divides by the zero unit count (`ZeroDivisionError`, modelled as `none`) —
for every configuration and every explicit-grouping input alike. -/
theorem C8_zero_units_not_tolerated (parsed : Option (List Int)) (stavesHeight : ℚ)
    (pl : PageLayout) :
    resolveGroups parsed [] pl = [0] ∧
    runModel parsed [] stavesHeight pl = none := by
  have hres : resolveGroups parsed [] pl = [0] := by
    cases parsed with
    | none =>
      simp only [resolveGroups, resolveAndScale, packAuto, List.foldl_nil, List.length_nil]
      exact groups_callback_zero_of_sum_zero [] rfl
    | some g =>
      simp only [resolveGroups, resolveAndScale, List.length_nil]
      exact groups_callback_zero_of_sum_zero _ (by simpa using groups_callback_sum 0 g)
  refine ⟨hres, ?_⟩
  rw [runModel, hres]
  simp [assemblePages, assembleGo, pyRange, layout_systems, extraPaddings, List.mapM.loop]

/-- C3 (amended): for a group with minimum height below the standard height
and the active ragged flag unset, the per-unit extra top and bottom paddings,
summed over the group's unit count, equal exactly `standard_height -
minimumHeight - top_margin - bottom_margin` (the code subtracts the margins
from the slack although `minimumHeight` already contains them; the 30-unit
cap shifts weight between the two paddings but never changes the total), so
the placement cursor lands at `top_margin + 2 * bottom_margin` above the
canvas bottom, not at `bottom_margin`.  The claim's figures (total `192`,
landing at `bottom_margin`) are refuted in `C3_scenario_spacing_is_132`. -/
theorem C3_dynamic_spacing_total (systems : List (ℚ × ℚ)) (pl : PageLayout) (is_last : Bool)
    (hne : systems ≠ [])
    (hstd : pl.minimum_height = A4height)
    (hdyn : dynamicLayoutFlag systems pl is_last = true) :
    (extraPaddings systems.length (dynamicSpacing systems pl is_last)).map
        (fun q => (q.1 + q.2) * (systems.length : ℚ))
      = some (A4height - calculate_min_height systems pl
          - pl.bottom_margin - pl.top_margin) ∧
    (layout_systems systems pl.stave_height pl is_last).map PlacedPage.final
      = some (pl.top_margin + 2 * pl.bottom_margin) := by
  have hn : systems.length ≠ 0 := by simpa [List.length_eq_zero] using hne
  have hds : dynamicSpacing systems pl is_last
      = A4height - calculate_min_height systems pl - pl.bottom_margin - pl.top_margin := by
    rw [dynamicSpacing, if_pos hdyn, hstd]
  have hminlt : calculate_min_height systems pl < A4height := by
    rw [dynamicLayoutFlag] at hdyn
    split at hdyn
    · rw [Bool.and_eq_true] at hdyn
      exact of_decide_eq_true hdyn.1
    · rw [Bool.and_eq_true] at hdyn
      exact of_decide_eq_true hdyn.1
  obtain ⟨abp, atp, hex⟩ : ∃ a b,
      extraPaddings systems.length (dynamicSpacing systems pl is_last) = some (a, b) := by
    rw [extraPaddings, if_neg hn]
    exact ⟨_, _, rfl⟩
  have hsum := extraPaddings_sum systems.length _ abp atp hn hex
  rw [hds] at hsum
  constructor
  · rw [hex]
    simp only [Option.map_some', Option.some.injEq]
    rw [hsum]
  · have hH : (if pl.minimum_height < calculate_min_height systems pl
        then calculate_min_height systems pl else pl.minimum_height) = A4height := by
      rw [hstd, if_neg (not_lt.mpr (le_of_lt hminlt))]
    simp only [layout_systems, hex, Option.map_some', Option.some.injEq]
    rw [hH, placeSpans_final]
    simp only [List.length_map]
    have hmh := calculate_min_height_eq systems pl
    linear_combination hmh - hsum

/-- C3 witness: for the concrete scenario — one unit of height 500, staves
block of height 50, margins 30/30, paddings 30/10, standard height 842 — the
extra paddings sum to `842 - 650 - 30 - 30` and the cursor lands at
`30 + 2 * 30` above the canvas bottom. -/
theorem C3_dynamic_spacing_total_witness :
    (extraPaddings ([((100 : ℚ), (500 : ℚ))]).length
        (dynamicSpacing [((100 : ℚ), (500 : ℚ))] plA false)).map
        (fun q => (q.1 + q.2) * (([((100 : ℚ), (500 : ℚ))]).length : ℚ))
      = some (A4height - calculate_min_height [((100 : ℚ), (500 : ℚ))] plA
          - plA.bottom_margin - plA.top_margin) ∧
    (layout_systems [((100 : ℚ), (500 : ℚ))] plA.stave_height plA false).map PlacedPage.final
      = some (plA.top_margin + 2 * plA.bottom_margin) :=
  C3_dynamic_spacing_total [((100 : ℚ), (500 : ℚ))] plA false (List.cons_ne_nil _ _) rfl
    (by norm_num [dynamicLayoutFlag, calculate_min_height, plA, A4height])

/-- C3 counterexample: in the claim's concrete scenario the distributed extra
padding sums to 132 (bottom capped at 30, top 102), not `842 - 650 = 192`,
and the cursor lands 90 points above the canvas bottom, not at the bottom
margin 30. -/
theorem C3_scenario_spacing_is_132 :
    layout_systems [((100 : ℚ), (500 : ℚ))] 50 plA false
      = some ⟨842, [(312, 812), (222, 272)], 90⟩ ∧
    calculate_min_height [((100 : ℚ), (500 : ℚ))] plA = 650 ∧
    (extraPaddings 1 (dynamicSpacing [((100 : ℚ), (500 : ℚ))] plA false)).map
        (fun q => (q.1 + q.2) * 1) = some 132 ∧
    ((132 : ℚ) ≠ A4height - 650) ∧
    ((90 : ℚ) ≠ plA.bottom_margin) := by
  refine ⟨?_, ?_, ?_, ?_, ?_⟩
  · norm_num [layout_systems, calculate_min_height, dynamicSpacing, dynamicLayoutFlag,
      extraPaddings, placeSpans, plA, A4height]
  · norm_num [calculate_min_height, plA]
  · norm_num [extraPaddings, dynamicSpacing, dynamicLayoutFlag, calculate_min_height,
      plA, A4height]
  · norm_num [A4height]
  · norm_num [plA]

/-- C6 (amended): for every assembled page whose dynamic spacing is
nonnegative — in particular whenever the layout is not dynamic, or the slack
`standard_height - minimumHeight` is at least `top_margin + bottom_margin` —
the vertical spans of all placed elements are pairwise disjoint (no two
overlap with positive extent).  When the dynamic spacing turns negative the
extra paddings turn negative and elements do overlap; see
`C6_negative_slack_overlap`. -/
theorem C6_spans_pairwise_disjoint (systems : List (ℚ × ℚ)) (stavesHeight : ℚ)
    (pl : PageLayout) (is_last : Bool)
    (hne : systems ≠ [])
    (hh : ∀ s ∈ systems, 0 ≤ s.2)
    (hsh : 0 ≤ stavesHeight)
    (hbp : 0 ≤ pl.bottom_padding)
    (htp : 0 ≤ pl.top_padding)
    (hds : 0 ≤ dynamicSpacing systems pl is_last) :
    layout_systems systems stavesHeight pl is_last ≠ none ∧
    List.Pairwise (fun a b => ¬ overlaps a b)
      (((layout_systems systems stavesHeight pl is_last).map PlacedPage.spans).getD []) := by
  have hn : systems.length ≠ 0 := by simpa [List.length_eq_zero] using hne
  obtain ⟨abp, atp, hex⟩ : ∃ a b,
      extraPaddings systems.length (dynamicSpacing systems pl is_last) = some (a, b) := by
    rw [extraPaddings, if_neg hn]
    exact ⟨_, _, rfl⟩
  obtain ⟨habp, hatp⟩ := extraPaddings_nonneg systems.length _ abp atp hn hds hex
  have hord := placeSpans_ordered stavesHeight (pl.bottom_padding + abp)
      (pl.top_padding + atp) hsh (by linarith) (by linarith)
      (systems.map (fun s => s.2))
      ((if pl.minimum_height < calculate_min_height systems pl
        then calculate_min_height systems pl else pl.minimum_height) - pl.top_margin)
      (by
        intro h hmem
        obtain ⟨s, hs, rfl⟩ := List.mem_map.mp hmem
        exact hh s hs)
  constructor
  · simp [layout_systems, hex]
  · simp only [layout_systems, hex, Option.map_some', Option.getD_some]
    exact hord.1.imp (fun hle hov => absurd hov.1 (not_lt.mpr hle))

/-- C6 witness: the concrete single-unit page (unit height 500, staves 50,
layout `plA`) has disjoint spans. -/
theorem C6_spans_pairwise_disjoint_witness :
    layout_systems [((100 : ℚ), (500 : ℚ))] 50 plA false ≠ none ∧
    List.Pairwise (fun a b => ¬ overlaps a b)
      (((layout_systems [((100 : ℚ), (500 : ℚ))] 50 plA false).map PlacedPage.spans).getD []) :=
  C6_spans_pairwise_disjoint [((100 : ℚ), (500 : ℚ))] 50 plA false
    (List.cons_ne_nil _ _) (by decide) (by decide) (by decide) (by decide)
    (by norm_num [dynamicSpacing, dynamicLayoutFlag, calculate_min_height, plA, A4height])

/-- C6 counterexample: with zero paddings and a unit of height 700 the
minimum height 810 lies below 842, the dynamic layout triggers with negative
slack `842 - 810 - 60 = -28`, both extra paddings turn negative, and the
staves span `(214/3, 364/3)` overlaps the unit span `(112, 812)` — two placed
elements with intersecting vertical spans. -/
theorem C6_negative_slack_overlap :
    layout_systems [((100 : ℚ), (700 : ℚ))] 50 plC6 false
      = some ⟨842, [(112, 812), (214/3, 364/3)], 90⟩ ∧
    overlaps ((112 : ℚ), (812 : ℚ)) ((214 : ℚ)/3, (364 : ℚ)/3) := by
  constructor
  · norm_num [layout_systems, calculate_min_height, dynamicSpacing, dynamicLayoutFlag,
      extraPaddings, placeSpans, plC6, A4height]
  · constructor <;> norm_num [overlaps]

/-- C9 (amended): the width-scaling transform runs only in automatic-grouping
runs, where every unit is passed through `scaleSystem`: an over-wide unit
comes out with width exactly `printable_width` and its aspect ratio
preserved.  In explicit-grouping runs the systems are placed entirely
unscaled; see `C9_explicit_mode_skips_scaling`. -/
theorem C9_scaling_only_in_automatic_mode (units : List (ℚ × ℚ)) (g : List Int)
    (pl : PageLayout) (u : ℚ × ℚ)
    (hpw : 0 < pl.printable_width) (hu : pl.printable_width < u.1) :
    pipelineUnits none units pl = units.map (scaleSystem pl) ∧
    (scaleSystem pl u).1 = pl.printable_width ∧
    (scaleSystem pl u).2 * u.1 = u.2 * (scaleSystem pl u).1 ∧
    pipelineUnits (some g) units pl = units := by
  refine ⟨?_, ?_, ?_, rfl⟩
  · simp only [pipelineUnits, resolveAndScale]
    exact packAuto_scaled pl units
  · rw [scaleSystem, if_pos hu]
    have h1 : u.1 ≠ 0 := ne_of_gt (lt_trans hpw hu)
    field_simp
  · rw [scaleSystem, if_pos hu]
    ring

/-- C9 witness: in an automatic run a 600-point-wide unit is scaled to the
printable width with its aspect ratio preserved; in an explicit run it is
left alone. -/
theorem C9_scaling_only_in_automatic_mode_witness :
    pipelineUnits none [((600 : ℚ), (100 : ℚ))] plA
      = [((600 : ℚ), (100 : ℚ))].map (scaleSystem plA) ∧
    (scaleSystem plA ((600 : ℚ), (100 : ℚ))).1 = plA.printable_width ∧
    (scaleSystem plA ((600 : ℚ), (100 : ℚ))).2 * (600 : ℚ)
      = (100 : ℚ) * (scaleSystem plA ((600 : ℚ), (100 : ℚ))).1 ∧
    pipelineUnits (some [1]) [((600 : ℚ), (100 : ℚ))] plA = [((600 : ℚ), (100 : ℚ))] :=
  C9_scaling_only_in_automatic_mode [((600 : ℚ), (100 : ℚ))] [1] plA ((600 : ℚ), (100 : ℚ))
    (by norm_num [PageLayout.printable_width, plA, A4width])
    (by norm_num [PageLayout.printable_width, plA, A4width])

/-- C9 counterexample: in an explicit-grouping run a unit of width 600 —
wider than the printable width 535 — reaches placement entirely unscaled,
refuting "in every run ... scaled ... before it is placed". -/
theorem C9_explicit_mode_skips_scaling :
    pipelineUnits (some [1]) [((600 : ℚ), (100 : ℚ))] plA = [((600 : ℚ), (100 : ℚ))] ∧
    plA.printable_width < 600 ∧
    (600 : ℚ) ≠ plA.printable_width := by
  refine ⟨rfl, ?_, ?_⟩
  · norm_num [PageLayout.printable_width, plA, A4width]
  · norm_num [PageLayout.printable_width, plA, A4width]
